import Mathlib

/-!
# Pull zone hostname operations of the bunny.net provider client

A shallow embedding of `internal/api/pullzone_hostname.go` and the properties of its four
operations `CreatePullzoneHostname`, `UpdatePullzoneHostname`, `GetPullzoneHostname` and
`DeletePullzoneHostname`.

The Go methods talk to the remote API through two primitives of `Client`, `doRequest` and
`GetPullzone`.  Both are fields of the embedded `Client`; the remote is an arbitrary state
machine over a state type `σ`, and every operation threads that state explicitly and records
the remote calls it makes, together with their replies, in a trace.

Conventions of the embedding:
* `int64` identifiers are `Int` (the code only compares them with `==` and prints them);
* a Go `error` is `Option String`: `none` is `nil`, `some msg` an error whose text is `msg`;
* the bytes produced by `json.Marshal` of a Go map are kept as the list of its entries in key
  order; `json.Marshal` cannot fail on maps holding only strings and booleans, so the
  `if err != nil` branches after it are dead and do not appear.
-/

namespace BunnyApi

/-- Go `error`: `none` is `nil`. -/
abbrev Error := Option String

/-- The `PullzoneHostname` struct (lines 14-21). -/
structure PullzoneHostname where
  Id : Int
  PullzoneId : Int
  Name : String
  IsSystemHostname : Bool
  HasCertificate : Bool
  ForceSSL : Bool
deriving DecidableEq, Repr

/-- The zero value `PullzoneHostname{}`. -/
def PullzoneHostname.zero : PullzoneHostname :=
  { Id := 0, PullzoneId := 0, Name := "", IsSystemHostname := false,
    HasCertificate := false, ForceSSL := false }

/-- The part of the `Pullzone` struct this file reads: its hostname list. -/
structure Pullzone where
  Hostnames : List PullzoneHostname
deriving DecidableEq, Repr

/-- The three `net/http` method constants the file uses. -/
inductive Method where
  | MethodGet
  | MethodPost
  | MethodDelete
deriving DecidableEq, Repr

/-- A value stored in a marshalled map. -/
inductive JsonValue where
  | str (s : String)
  | bool (b : Bool)
deriving DecidableEq, Repr

/-- A marshalled JSON object: its entries in key order. -/
abbrev Body := List (String × JsonValue)

/-- The two fields of `http.Response` the code inspects. -/
structure Response where
  StatusCode : Int
  Status : String
deriving DecidableEq, Repr

/-- The value `http.StatusNoContent`. -/
def StatusNoContent : Int := 204

/-- The value `http.StatusOK`. -/
def StatusOK : Int := 200

/-- What a remote primitive hands back: a transport error or a value. -/
inductive Reply (α : Type) where
  | err (msg : String)
  | ok (value : α)
deriving DecidableEq, Repr

/-- The client: its base URL and the two remote primitives, as transitions of the remote
state `σ`.  `doRequest` takes the method, the URL and the body (`none` for a `nil` reader). -/
structure Client (σ : Type) where
  apiUrl : String
  doRequest : Method → String → Option Body → σ → Reply Response × σ
  GetPullzone : Int → σ → Reply Pullzone × σ

/-- One remote call as the remote sees it. -/
inductive Call where
  | request (method : Method) (url : String) (body : Option Body)
  | getPullzone (id : Int)
deriving DecidableEq, Repr

/-- One remote call together with its reply. -/
inductive Event where
  | request (method : Method) (url : String) (body : Option Body) (reply : Reply Response)
  | getPullzone (id : Int) (reply : Reply Pullzone)
deriving DecidableEq, Repr

/-- The call of an event, its reply forgotten. -/
def Event.call : Event → Call
  | .request m u b _ => .request m u b
  | .getPullzone i _ => .getPullzone i

/-- The result of running an operation: what it returns, the remote state it leaves, and the
remote calls it made, in order. -/
structure Outcome (σ α : Type) where
  ret : α
  state : σ
  trace : List Event

/-- The calls of a run, replies forgotten. -/
def Outcome.calls {σ α : Type} (o : Outcome σ α) : List Call :=
  o.trace.map Event.call

/-! ### URLs and bodies -/

/-- The URL `fmt.Sprintf("%s/pullzone/%d/addHostname", c.apiUrl, pullzoneId)`. -/
def addHostnameUrl (apiUrl : String) (pullzoneId : Int) : String :=
  apiUrl ++ "/pullzone/" ++ toString pullzoneId ++ "/addHostname"

/-- The URL `fmt.Sprintf("%s/pullzone/%d/removeCertificate", c.apiUrl, pullzoneId)`. -/
def removeCertificateUrl (apiUrl : String) (pullzoneId : Int) : String :=
  apiUrl ++ "/pullzone/" ++ toString pullzoneId ++ "/removeCertificate"

/-- The URL `fmt.Sprintf("%s/pullzone/loadFreeCertificate?hostname=%s", c.apiUrl, data.Name)`. -/
def loadFreeCertificateUrl (apiUrl : String) (name : String) : String :=
  apiUrl ++ "/pullzone/loadFreeCertificate?hostname=" ++ name

/-- The URL `fmt.Sprintf("%s/pullzone/%d/setForceSSL", c.apiUrl, pullzoneId)`. -/
def setForceSSLUrl (apiUrl : String) (pullzoneId : Int) : String :=
  apiUrl ++ "/pullzone/" ++ toString pullzoneId ++ "/setForceSSL"

/-- The URL `fmt.Sprintf("%s/pullzone/%d/removeHostname", c.apiUrl, pullzoneId)`. -/
def removeHostnameUrl (apiUrl : String) (pullzoneId : Int) : String :=
  apiUrl ++ "/pullzone/" ++ toString pullzoneId ++ "/removeHostname"

/-- The marshalled map `{"Hostname": name}`. -/
def hostnameBody (name : String) : Body :=
  [("Hostname", .str name)]

/-- The marshalled map `{"ForceSSL": forceSSL, "Hostname": name}`. -/
def forceSSLBody (forceSSL : Bool) (name : String) : Body :=
  [("ForceSSL", .bool forceSSL), ("Hostname", .str name)]

/-! ### The operations -/

/-- The pattern every mutating step of Create and Update follows:
`resp, err := c.doRequest(..)`, return `err` when it is not `nil`, return
`errors.New(what + " failed with " + resp.Status)` when the status code is not the expected one,
go on otherwise.  The result is the error to return (`none`: go on), the remote state and the
one event of the step. -/
def checkedRequest {σ : Type} (c : Client σ) (method : Method) (url : String)
    (body : Option Body) (expected : Int) (what : String) (s : σ) : Error × σ × List Event :=
  match c.doRequest method url body s with
  | (.err err, s1) => (some err, s1, [.request method url body (.err err)])
  | (.ok resp, s1) =>
    if resp.StatusCode ≠ expected then
      (some (what ++ " failed with " ++ resp.Status), s1, [.request method url body (.ok resp)])
    else
      (none, s1, [.request method url body (.ok resp)])

/-- The loop of `GetPullzoneHostname` (lines 137-144): the first hostname whose `Id` is `id`,
with `PullzoneId` set, or the error "Hostname not found". -/
def GetPullzoneHostname.scan (pullzoneId id : Int) :
    List PullzoneHostname → PullzoneHostname × Error
  | [] => (PullzoneHostname.zero, some "Hostname not found")
  | hostname :: rest =>
    if hostname.Id = id then
      ({ hostname with PullzoneId := pullzoneId }, none)
    else
      GetPullzoneHostname.scan pullzoneId id rest

/-- The method `GetPullzoneHostname` (lines 131-145). -/
def GetPullzoneHostname {σ : Type} (c : Client σ) (pullzoneId id : Int) (s : σ) :
    Outcome σ (PullzoneHostname × Error) :=
  match c.GetPullzone pullzoneId s with
  | (.err err, s1) =>
    ⟨(PullzoneHostname.zero, some err), s1, [.getPullzone pullzoneId (.err err)]⟩
  | (.ok pullzone, s1) =>
    ⟨GetPullzoneHostname.scan pullzoneId id pullzone.Hostnames, s1,
      [.getPullzone pullzoneId (.ok pullzone)]⟩

/-- The method `UpdatePullzoneHostname` (lines 65-129).  Each of the two certificate blocks is
run when its condition holds and skipped otherwise; a block that returns ends the run. -/
def UpdatePullzoneHostname {σ : Type} (c : Client σ) (data previousData : PullzoneHostname)
    (s : σ) : Outcome σ (PullzoneHostname × Error) :=
  let pullzoneId := data.PullzoneId
  if pullzoneId = 0 then
    ⟨(PullzoneHostname.zero, some "pullzone is required"), s, []⟩
  else if data.IsSystemHostname && previousData.HasCertificate && !data.HasCertificate then
    ⟨(PullzoneHostname.zero,
      some "removing a certificate from an internal hostname is not supported"), s, []⟩
  else
    -- remove existing certificate
    match (if !data.IsSystemHostname && previousData.HasCertificate && !data.HasCertificate then
        checkedRequest c .MethodDelete (removeCertificateUrl c.apiUrl pullzoneId)
          (some (hostnameBody data.Name)) StatusNoContent "removeCertificate" s
      else (none, s, [])) with
    | (some err, s1, t1) => ⟨(PullzoneHostname.zero, some err), s1, t1⟩
    | (none, s1, t1) =>
      -- manage free TLS certificate
      match (if !data.IsSystemHostname && !previousData.HasCertificate && data.HasCertificate then
          checkedRequest c .MethodGet (loadFreeCertificateUrl c.apiUrl data.Name)
            none StatusOK "loadFreeCertificate" s1
        else (none, s1, [])) with
      | (some err, s2, t2) => ⟨(PullzoneHostname.zero, some err), s2, t1 ++ t2⟩
      | (none, s2, t2) =>
        -- force SSL
        match checkedRequest c .MethodPost (setForceSSLUrl c.apiUrl pullzoneId)
            (some (forceSSLBody data.ForceSSL data.Name)) StatusNoContent "forceSSL" s2 with
        | (some err, s3, t3) => ⟨(PullzoneHostname.zero, some err), s3, t1 ++ t2 ++ t3⟩
        | (none, s3, t3) =>
          let out := GetPullzoneHostname c pullzoneId data.Id s3
          ⟨out.ret, out.state, t1 ++ t2 ++ t3 ++ out.trace⟩

/-- The loop of `CreatePullzoneHostname` (lines 51-62): at the first hostname whose `Name` is
`data.Name` it returns what `UpdatePullzoneHostname` returns on the overlaid entry and the
snapshot; with no such hostname it returns the error "Hostname not found". -/
def CreatePullzoneHostname.scan {σ : Type} (c : Client σ) (data : PullzoneHostname)
    (pullzoneId : Int) (s : σ) : List PullzoneHostname → Outcome σ (PullzoneHostname × Error)
  | [] => ⟨(PullzoneHostname.zero, some "Hostname not found"), s, []⟩
  | hostname :: rest =>
    if hostname.Name = data.Name then
      let previousData : PullzoneHostname :=
        { PullzoneHostname.zero with HasCertificate := hostname.HasCertificate }
      let hostname1 := { hostname with PullzoneId := pullzoneId }
      let hostname2 := { hostname1 with HasCertificate := data.HasCertificate }
      let hostname3 := { hostname2 with ForceSSL := data.ForceSSL }
      UpdatePullzoneHostname c hostname3 previousData s
    else
      CreatePullzoneHostname.scan c data pullzoneId s rest

/-- The method `CreatePullzoneHostname` (lines 23-63). -/
def CreatePullzoneHostname {σ : Type} (c : Client σ) (data : PullzoneHostname) (s : σ) :
    Outcome σ (PullzoneHostname × Error) :=
  let pullzoneId := data.PullzoneId
  if pullzoneId = 0 then
    ⟨(PullzoneHostname.zero, some "pullzone is required"), s, []⟩
  else
    match checkedRequest c .MethodPost (addHostnameUrl c.apiUrl pullzoneId)
        (some (hostnameBody data.Name)) StatusNoContent "addHostname" s with
    | (some err, s1, t1) => ⟨(PullzoneHostname.zero, some err), s1, t1⟩
    | (none, s1, t1) =>
      match c.GetPullzone pullzoneId s1 with
      | (.err err, s2) =>
        ⟨(PullzoneHostname.zero, some err), s2, t1 ++ [.getPullzone pullzoneId (.err err)]⟩
      | (.ok pullzone, s2) =>
        let out := CreatePullzoneHostname.scan c data pullzoneId s2 pullzone.Hostnames
        ⟨out.ret, out.state, t1 ++ [.getPullzone pullzoneId (.ok pullzone)] ++ out.trace⟩

/-- The method `DeletePullzoneHostname` (lines 147-166). -/
def DeletePullzoneHostname {σ : Type} (c : Client σ) (pullzoneId : Int) (hostname : String)
    (s : σ) : Outcome σ Error :=
  match c.doRequest .MethodDelete (removeHostnameUrl c.apiUrl pullzoneId)
      (some (hostnameBody hostname)) s with
  | (.err err, s1) =>
    ⟨some err, s1, [.request .MethodDelete (removeHostnameUrl c.apiUrl pullzoneId)
      (some (hostnameBody hostname)) (.err err)]⟩
  | (.ok resp, s1) =>
    if resp.StatusCode ≠ StatusNoContent then
      ⟨some resp.Status, s1, [.request .MethodDelete (removeHostnameUrl c.apiUrl pullzoneId)
        (some (hostnameBody hostname)) (.ok resp)]⟩
    else
      ⟨none, s1, [.request .MethodDelete (removeHostnameUrl c.apiUrl pullzoneId)
        (some (hostnameBody hostname)) (.ok resp)]⟩

/-! ### Failed calls -/

/-- The status code the code compares a reply with, by method.  Within
`UpdatePullzoneHostname` the method identifies the request: `removeCertificate` is its only
DELETE and must answer 204, `loadFreeCertificate` its only GET and must answer 200,
`setForceSSL` its only POST and must answer 204. -/
def expectedStatus : Method → Int
  | .MethodGet => StatusOK
  | .MethodPost => StatusNoContent
  | .MethodDelete => StatusNoContent

/-- A remote call failed: the transport returned an error, or the reply carries a status code
other than the expected one. -/
def Event.failed : Event → Bool
  | .request _ _ _ (.err _) => true
  | .request method _ _ (.ok resp) => decide (resp.StatusCode ≠ expectedStatus method)
  | .getPullzone _ (.err _) => true
  | .getPullzone _ (.ok _) => false

/-- The call is an HTTP request, not a `GetPullzone` read. -/
def Call.isRequest : Call → Bool
  | .request _ _ _ => true
  | .getPullzone _ => false

/-- The certificate call the gating conditions prescribe for an Update, stated on the flags
alone: the `removeCertificate` request when the hostname is not a system hostname, had a
certificate and shall have none; the `loadFreeCertificate` request when it is not a system
hostname, had none and shall have one; no call otherwise. -/
def certificateCalls (apiUrl : String) (data previousData : PullzoneHostname) : List Call :=
  if !data.IsSystemHostname && previousData.HasCertificate && !data.HasCertificate then
    [.request .MethodDelete (removeCertificateUrl apiUrl data.PullzoneId)
      (some (hostnameBody data.Name))]
  else if !data.IsSystemHostname && !previousData.HasCertificate && data.HasCertificate then
    [.request .MethodGet (loadFreeCertificateUrl apiUrl data.Name) none]
  else
    []

/-- The `setForceSSL` call of an Update: a POST carrying `ForceSSL` and `Hostname`. -/
def forceSSLCall (apiUrl : String) (data : PullzoneHostname) : Call :=
  .request .MethodPost (setForceSSLUrl apiUrl data.PullzoneId)
    (some (forceSSLBody data.ForceSSL data.Name))

/-- The entry Create hands to Update: the listed entry `m` with the zone attached and the
caller's `HasCertificate` and `ForceSSL` laid over it. -/
def overlay (m data : PullzoneHostname) : PullzoneHostname :=
  { m with PullzoneId := data.PullzoneId, HasCertificate := data.HasCertificate,
           ForceSSL := data.ForceSSL }

/-- The snapshot Create hands to Update: only `HasCertificate` of the listed entry. -/
def snapshot (m : PullzoneHostname) : PullzoneHostname :=
  { Id := 0, PullzoneId := 0, Name := "", IsSystemHostname := false,
    HasCertificate := m.HasCertificate, ForceSSL := false }

/-- The error text `msg` reports the failed call: it is the transport error itself, or it ends
with the status text of the reply. -/
def Event.reportedAs : Event → String → Prop
  | .request _ _ _ (.err err), msg => msg = err
  | .request _ _ _ (.ok resp), msg => ∃ pre : String, msg = pre ++ resp.Status
  | .getPullzone _ (.err err), msg => msg = err
  | .getPullzone _ (.ok _), _ => True

/-! ### Remotes to run the operations against -/

/-- The reply of a remote that accepts a request: 200 to a GET, 204 to the rest. -/
def successReply : Method → Response
  | .MethodGet => ⟨200, "200 OK"⟩
  | .MethodPost => ⟨204, "204 No Content"⟩
  | .MethodDelete => ⟨204, "204 No Content"⟩

/-- A remote that never changes: it accepts every request and always lists `hosts`. -/
def staticClient (hosts : List PullzoneHostname) : Client Unit where
  apiUrl := "https://api.bunny.net"
  doRequest := fun method _ _ s => (.ok (successReply method), s)
  GetPullzone := fun _ s => (.ok ⟨hosts⟩, s)

/-- A remote that accepts DELETE and GET requests but rejects every POST with 503. -/
def rejectingPostClient : Client Unit where
  apiUrl := "https://api.bunny.net"
  doRequest := fun method _ _ s =>
    match method with
    | .MethodPost => (.ok ⟨503, "503 Service Unavailable"⟩, s)
    | .MethodGet => (.ok ⟨200, "200 OK"⟩, s)
    | .MethodDelete => (.ok ⟨204, "204 No Content"⟩, s)
  GetPullzone := fun _ s => (.ok ⟨[]⟩, s)

/-- The `Hostname` entry of a request body. -/
def bodyHostname : Option Body → Option String
  | some entries =>
    match entries.lookup "Hostname" with
    | some (.str name) => some name
    | _ => none
  | none => none

/-- The `ForceSSL` entry of a request body. -/
def bodyForceSSL : Option Body → Option Bool
  | some entries =>
    match entries.lookup "ForceSSL" with
    | some (.bool flag) => some flag
    | _ => none
  | none => none

/-- A remote holding one pull zone, `zone`, whose state is the zone's hostname list.
`addHostname` appends a fresh entry without certificate, `removeCertificate` and
`loadFreeCertificate` clear and set `HasCertificate` of the named hostname, `setForceSSL` stores
the flag of the named hostname, `removeHostname` drops it, `GetPullzone` lists the state. -/
def zoneRemote (zone : Int) : Client (List PullzoneHostname) where
  apiUrl := "https://api.bunny.net"
  doRequest := fun method url body hosts =>
    if method = .MethodPost ∧ url = addHostnameUrl "https://api.bunny.net" zone then
      match bodyHostname body with
      | some name =>
        (.ok ⟨204, "204 No Content"⟩,
          hosts ++ [{ Id := (hosts.map (fun h => h.Id)).foldl max 0 + 1, PullzoneId := 0,
                      Name := name, IsSystemHostname := false, HasCertificate := false,
                      ForceSSL := false }])
      | none => (.ok ⟨400, "400 Bad Request"⟩, hosts)
    else if method = .MethodPost ∧ url = setForceSSLUrl "https://api.bunny.net" zone then
      match bodyHostname body, bodyForceSSL body with
      | some name, some flag =>
        (.ok ⟨204, "204 No Content"⟩,
          hosts.map (fun h => if h.Name = name then { h with ForceSSL := flag } else h))
      | _, _ => (.ok ⟨400, "400 Bad Request"⟩, hosts)
    else if method = .MethodDelete ∧ url = removeCertificateUrl "https://api.bunny.net" zone then
      match bodyHostname body with
      | some name =>
        (.ok ⟨204, "204 No Content"⟩,
          hosts.map (fun h => if h.Name = name then { h with HasCertificate := false } else h))
      | none => (.ok ⟨400, "400 Bad Request"⟩, hosts)
    else if method = .MethodDelete ∧ url = removeHostnameUrl "https://api.bunny.net" zone then
      match bodyHostname body with
      | some name => (.ok ⟨204, "204 No Content"⟩, hosts.filter (fun h => h.Name ≠ name))
      | none => (.ok ⟨400, "400 Bad Request"⟩, hosts)
    else if method = .MethodGet then
      (.ok ⟨200, "200 OK"⟩,
        hosts.map (fun h =>
          if url = loadFreeCertificateUrl "https://api.bunny.net" h.Name then
            { h with HasCertificate := true }
          else h))
    else
      (.ok ⟨404, "404 Not Found"⟩, hosts)
  GetPullzone := fun id hosts =>
    if id = zone then (.ok ⟨hosts⟩, hosts) else (.err "pullzone not found", hosts)

/-- The system hostname a zone starts with. -/
def systemHost : PullzoneHostname :=
  { Id := 1, PullzoneId := 0, Name := "zone5.b-cdn.net", IsSystemHostname := true,
    HasCertificate := true, ForceSSL := false }

/-- A system hostname that has no certificate yet. -/
def bareSystemHost : PullzoneHostname :=
  { Id := 1, PullzoneId := 0, Name := "zone5.b-cdn.net", IsSystemHostname := true,
    HasCertificate := false, ForceSSL := false }

/-- The desired hostname of the end-to-end run: zone 5, `a.example.com`, with certificate and
forced SSL. -/
def desiredHost : PullzoneHostname :=
  { Id := 0, PullzoneId := 5, Name := "a.example.com", IsSystemHostname := false,
    HasCertificate := true, ForceSSL := true }

/-- The entry of `a.example.com` as listed by the remote, with the given flags. -/
def listedHost (hasCertificate forceSSL : Bool) : PullzoneHostname :=
  { Id := 2, PullzoneId := 0, Name := "a.example.com", IsSystemHostname := false,
    HasCertificate := hasCertificate, ForceSSL := forceSSL }

end BunnyApi

namespace BunnyApi

/-! ### Basic facts about the steps -/

/-- The three ways a checked request ends: transport error, unexpected status, success. -/
theorem checkedRequest_cases {σ : Type} (c : Client σ) (method : Method) (url : String)
    (body : Option Body) (expected : Int) (what : String) (s : σ) :
    (∃ err s1, c.doRequest method url body s = (.err err, s1) ∧
      checkedRequest c method url body expected what s =
        (some err, s1, [.request method url body (.err err)])) ∨
    (∃ resp s1, c.doRequest method url body s = (.ok resp, s1) ∧ resp.StatusCode ≠ expected ∧
      checkedRequest c method url body expected what s =
        (some (what ++ " failed with " ++ resp.Status), s1,
          [.request method url body (.ok resp)])) ∨
    (∃ resp s1, c.doRequest method url body s = (.ok resp, s1) ∧ resp.StatusCode = expected ∧
      checkedRequest c method url body expected what s =
        (none, s1, [.request method url body (.ok resp)])) := by
  unfold checkedRequest
  rcases h : c.doRequest method url body s with ⟨reply, s1⟩
  cases reply with
  | err msg => exact Or.inl ⟨msg, s1, rfl, rfl⟩
  | ok resp =>
    by_cases hs : resp.StatusCode = expected
    · exact Or.inr (Or.inr ⟨resp, s1, rfl, hs, by simp [hs]⟩)
    · exact Or.inr (Or.inl ⟨resp, s1, rfl, hs, by simp [hs]⟩)

/-- The loop of `GetPullzoneHostname` is a find-first on `Id`. -/
theorem getScan_eq_find (pullzoneId id : Int) (l : List PullzoneHostname) :
    GetPullzoneHostname.scan pullzoneId id l =
      match l.find? (fun h => decide (h.Id = id)) with
      | some h => ({ h with PullzoneId := pullzoneId }, none)
      | none => (PullzoneHostname.zero, some "Hostname not found") := by
  induction l with
  | nil => rfl
  | cons h rest ih =>
    by_cases hid : h.Id = id
    · simp [GetPullzoneHostname.scan, List.find?, hid]
    · simp [GetPullzoneHostname.scan, List.find?, hid, ih]

/-- The loop of `CreatePullzoneHostname` is a find-first on `Name` followed by Update. -/
theorem createScan_eq_find {σ : Type} (c : Client σ) (data : PullzoneHostname)
    (s : σ) (l : List PullzoneHostname) :
    CreatePullzoneHostname.scan c data data.PullzoneId s l =
      match l.find? (fun h => decide (h.Name = data.Name)) with
      | some m => UpdatePullzoneHostname c (overlay m data) (snapshot m) s
      | none => ⟨(PullzoneHostname.zero, some "Hostname not found"), s, []⟩ := by
  induction l with
  | nil => rfl
  | cons h rest ih =>
    by_cases hn : h.Name = data.Name
    · simp [CreatePullzoneHostname.scan, List.find?, hn, overlay, snapshot,
        PullzoneHostname.zero]
    · simp [CreatePullzoneHostname.scan, List.find?, hn, ih]

/-- The one call of `GetPullzoneHostname` is the `GetPullzone` of the zone. -/
theorem getPullzoneHostname_calls {σ : Type} (c : Client σ) (pullzoneId id : Int) (s : σ) :
    (GetPullzoneHostname c pullzoneId id s).trace.map Event.call = [.getPullzone pullzoneId] := by
  unfold GetPullzoneHostname
  rcases h : c.GetPullzone pullzoneId s with ⟨reply, s1⟩
  cases reply <;> rfl

/-- What a step of Update leaves behind, whether it was due (`b`) or not: the events of the
step are its call when it was due and none otherwise; when the step lets the run go on, its
events did not fail; when it ends the run with `msg`, the step was due and its one event failed
and is reported as `msg`. -/
theorem gated_step_inv {σ : Type} {b : Bool} {c : Client σ} {method : Method} {url : String}
    {body : Option Body} {expected : Int} {what : String} {s s1 : σ} {eo : Error}
    {t1 : List Event} (hexp : expected = expectedStatus method)
    (h : (if b = true then checkedRequest c method url body expected what s else (none, s, []))
      = (eo, s1, t1)) :
    t1.map Event.call = (if b = true then [Call.request method url body] else []) ∧
    (eo = none → ∀ x ∈ t1, x.failed = false) ∧
    (∀ msg, eo = some msg → ∃ e, t1 = [e] ∧ b = true ∧ e.failed = true ∧ e.reportedAs msg) := by
  subst hexp
  cases b with
  | false =>
    simp only [Bool.false_eq_true, if_false, Prod.mk.injEq] at h
    obtain ⟨h1, -, h3⟩ := h
    subst h1 h3
    simp
  | true =>
    simp only [if_true] at h
    rcases checkedRequest_cases c method url body (expectedStatus method) what s with
      ⟨err, s2, -, hc⟩ | ⟨resp, s2, -, hne, hc⟩ | ⟨resp, s2, -, he, hc⟩
    all_goals
      rw [hc] at h
      simp only [Prod.mk.injEq] at h
      obtain ⟨h1, -, h3⟩ := h
      subst h1 h3
    · simp [Event.call, Event.failed, Event.reportedAs]
    · refine ⟨rfl, by simp, ?_⟩
      intro msg hmsg
      cases hmsg
      exact ⟨_, rfl, rfl, by simp [Event.failed, hne], ⟨what ++ " failed with ", rfl⟩⟩
    · simp [Event.call, Event.failed, he]

/-- Every run of Update that gets past its two guards has one of three shapes: the certificate
call failed; the certificate step went through (or was not due) and `setForceSSL` failed; or
both went through and the run ends with `GetPullzoneHostname`. -/
theorem update_run {σ : Type} (c : Client σ) (data previousData : PullzoneHostname) (s : σ)
    (hz : data.PullzoneId ≠ 0)
    (hguard : (data.IsSystemHostname && previousData.HasCertificate && !data.HasCertificate)
      = false) :
    (∃ e msg, (UpdatePullzoneHostname c data previousData s).trace = [e] ∧
        certificateCalls c.apiUrl data previousData = [e.call] ∧ e.failed = true ∧
        (UpdatePullzoneHostname c data previousData s).ret = (PullzoneHostname.zero, some msg) ∧
        e.reportedAs msg) ∨
    (∃ pre e msg, (UpdatePullzoneHostname c data previousData s).trace = pre ++ [e] ∧
        pre.map Event.call = certificateCalls c.apiUrl data previousData ∧
        (∀ x ∈ pre, x.failed = false) ∧ e.call = forceSSLCall c.apiUrl data ∧ e.failed = true ∧
        (UpdatePullzoneHostname c data previousData s).ret = (PullzoneHostname.zero, some msg) ∧
        e.reportedAs msg) ∨
    (∃ pre e s3, (UpdatePullzoneHostname c data previousData s).trace =
          pre ++ [e] ++ (GetPullzoneHostname c data.PullzoneId data.Id s3).trace ∧
        pre.map Event.call = certificateCalls c.apiUrl data previousData ∧
        (∀ x ∈ pre, x.failed = false) ∧ e.call = forceSSLCall c.apiUrl data ∧ e.failed = false ∧
        (UpdatePullzoneHostname c data previousData s).ret =
          (GetPullzoneHostname c data.PullzoneId data.Id s3).ret ∧
        (UpdatePullzoneHostname c data previousData s).state =
          (GetPullzoneHostname c data.PullzoneId data.Id s3).state) := by
  unfold UpdatePullzoneHostname
  simp only [hz, hguard, if_false, Bool.false_eq_true]
  split
  · -- the removal failed
    rename_i err s1 t1 h1
    obtain ⟨hcalls, -, hfail⟩ := gated_step_inv rfl h1
    obtain ⟨e, rfl, hb, hf, hr⟩ := hfail err rfl
    refine Or.inl ⟨e, err, rfl, ?_, hf, rfl, hr⟩
    simp only [hb, if_true, List.map_cons, List.map_nil] at hcalls
    simp only [certificateCalls, hb, if_true]
    exact hcalls.symm
  · rename_i s1 t1 h1
    obtain ⟨hcalls1, hok1, -⟩ := gated_step_inv rfl h1
    split
    · -- the provisioning failed
      rename_i err s2 t2 h2
      obtain ⟨hcalls2, -, hfail⟩ := gated_step_inv rfl h2
      obtain ⟨e, rfl, hb, hf, hr⟩ := hfail err rfl
      have hA : (!data.IsSystemHostname && previousData.HasCertificate &&
          !data.HasCertificate) = false := by
        revert hb
        cases data.IsSystemHostname <;> cases previousData.HasCertificate <;>
          cases data.HasCertificate <;> simp
      simp only [hA, Bool.false_eq_true, if_false, List.map_eq_nil_iff] at hcalls1
      subst hcalls1
      refine Or.inl ⟨e, err, rfl, ?_, hf, rfl, hr⟩
      simp only [hb, if_true, List.map_cons, List.map_nil] at hcalls2
      simp only [certificateCalls, hA, hb, if_true, Bool.false_eq_true, if_false]
      exact hcalls2.symm
    · rename_i s2 t2 h2
      obtain ⟨hcalls2, hok2, -⟩ := gated_step_inv rfl h2
      have hpre : (t1 ++ t2).map Event.call = certificateCalls c.apiUrl data previousData := by
        simp only [List.map_append, hcalls1, hcalls2, certificateCalls]
        cases data.IsSystemHostname <;> cases previousData.HasCertificate <;>
          cases data.HasCertificate <;> simp
      have hokpre : ∀ x ∈ t1 ++ t2, x.failed = false := by
        intro x hx
        rcases List.mem_append.1 hx with hx | hx
        · exact hok1 rfl x hx
        · exact hok2 rfl x hx
      split
      · -- setForceSSL failed
        rename_i err s3 t3 h3
        have h3' : (if true = true then checkedRequest c .MethodPost
            (setForceSSLUrl c.apiUrl data.PullzoneId)
            (some (forceSSLBody data.ForceSSL data.Name)) StatusNoContent "forceSSL" s2
            else (none, s2, [])) = (some err, s3, t3) := by simpa using h3
        obtain ⟨hcalls3, -, hfail⟩ := gated_step_inv rfl h3'
        obtain ⟨e, rfl, -, hf, hr⟩ := hfail err rfl
        refine Or.inr (Or.inl ⟨t1 ++ t2, e, err, rfl, hpre, hokpre, ?_, hf, rfl, hr⟩)
        simpa [forceSSLCall] using hcalls3
      · rename_i s3 t3 h3
        have h3' : (if true = true then checkedRequest c .MethodPost
            (setForceSSLUrl c.apiUrl data.PullzoneId)
            (some (forceSSLBody data.ForceSSL data.Name)) StatusNoContent "forceSSL" s2
            else (none, s2, [])) = (none, s3, t3) := by simpa using h3
        obtain ⟨hcalls3, hok3, -⟩ := gated_step_inv rfl h3'
        obtain ⟨e, rfl⟩ : ∃ e, t3 = [e] := by
          simp only [if_true] at hcalls3
          cases t3 with
          | nil => simp at hcalls3
          | cons e r =>
            cases r with
            | nil => exact ⟨e, rfl⟩
            | cons _ _ => simp at hcalls3
        refine Or.inr (Or.inr ⟨t1 ++ t2, e, s3, ?_, hpre, hokpre, ?_, ?_, rfl, rfl⟩)
        · simp
        · simpa [forceSSLCall] using hcalls3
        · exact hok3 rfl e (List.mem_singleton.2 rfl)

/-- An entry of `l ++ [a]` is an entry of `l` or the last one. -/
theorem getElem?_snoc_cases {α : Type} (l : List α) (a e : α) (i : Nat)
    (h : (l ++ [a])[i]? = some e) : e ∈ l ∨ (i = l.length ∧ e = a) := by
  by_cases hi : i < l.length
  · rw [List.getElem?_append_left hi] at h
    exact Or.inl (List.getElem?_mem h)
  · rw [List.getElem?_append_right (Nat.le_of_not_lt hi)] at h
    right
    cases hk : i - l.length with
    | zero =>
      rw [hk] at h
      simp at h
      exact ⟨by omega, h.symm⟩
    | succ k =>
      rw [hk] at h
      simp at h

/-- The one event of `GetPullzoneHostname`; when it failed, the transport error is returned
with the zero hostname. -/
theorem getPullzoneHostname_run {σ : Type} (c : Client σ) (pullzoneId id : Int) (s : σ) :
    ∃ g, (GetPullzoneHostname c pullzoneId id s).trace = [g] ∧
      (g.failed = true → ∃ msg, (GetPullzoneHostname c pullzoneId id s).ret =
        (PullzoneHostname.zero, some msg) ∧ g.reportedAs msg) := by
  unfold GetPullzoneHostname
  rcases h : c.GetPullzone pullzoneId s with ⟨reply, s1⟩
  cases reply with
  | err msg => exact ⟨_, rfl, fun _ => ⟨msg, rfl, rfl⟩⟩
  | ok pz => exact ⟨_, rfl, fun hf => by simp [Event.failed] at hf⟩

/-- With equal certificate flags no certificate call is due. -/
theorem certificateCalls_same (apiUrl : String) (data previousData : PullzoneHostname)
    (hsame : previousData.HasCertificate = data.HasCertificate) :
    certificateCalls apiUrl data previousData = [] := by
  unfold certificateCalls
  rw [hsame]
  cases data.IsSystemHostname <;> cases data.HasCertificate <;> simp

/-- The loop of Create reads only `Name`, `HasCertificate` and `ForceSSL` of the caller's
hostname. -/
theorem createScan_congr {σ : Type} (c : Client σ)
    (data data' : PullzoneHostname) (pullzoneId : Int) (s : σ) (l : List PullzoneHostname)
    (hn : data'.Name = data.Name) (hc : data'.HasCertificate = data.HasCertificate)
    (hf : data'.ForceSSL = data.ForceSSL) :
    CreatePullzoneHostname.scan c data' pullzoneId s l =
      CreatePullzoneHostname.scan c data pullzoneId s l := by
  induction l with
  | nil => rfl
  | cons h rest ih => simp only [CreatePullzoneHostname.scan, hn, hc, hf, ih]

/-- A checked request that is answered with the expected status lets the run go on. -/
theorem checkedRequest_ok {σ : Type} (c : Client σ) (method : Method) (url : String)
    (body : Option Body) (expected : Int) (what : String) (s s1 : σ) (resp : Response)
    (h : c.doRequest method url body s = (.ok resp, s1)) (hs : resp.StatusCode = expected) :
    checkedRequest c method url body expected what s =
      (none, s1, [.request method url body (.ok resp)]) := by
  unfold checkedRequest
  rw [h]
  simp [hs]

/-- Create after a successful `addHostname` and read-back is the name scan of the list. -/
theorem create_run {σ : Type} (c : Client σ) (data : PullzoneHostname)
    (s s1 s2 : σ) (resp : Response) (pullzone : Pullzone)
    (hz : data.PullzoneId ≠ 0)
    (hadd : c.doRequest .MethodPost (addHostnameUrl c.apiUrl data.PullzoneId)
      (some (hostnameBody data.Name)) s = (.ok resp, s1))
    (hstatus : resp.StatusCode = StatusNoContent)
    (hread : c.GetPullzone data.PullzoneId s1 = (.ok pullzone, s2)) :
    CreatePullzoneHostname c data s =
      ⟨(CreatePullzoneHostname.scan c data data.PullzoneId s2 pullzone.Hostnames).ret,
       (CreatePullzoneHostname.scan c data data.PullzoneId s2 pullzone.Hostnames).state,
       [.request .MethodPost (addHostnameUrl c.apiUrl data.PullzoneId)
            (some (hostnameBody data.Name)) (.ok resp),
          .getPullzone data.PullzoneId (.ok pullzone)] ++
        (CreatePullzoneHostname.scan c data data.PullzoneId s2 pullzone.Hostnames).trace⟩ := by
  unfold CreatePullzoneHostname
  simp [hz, checkedRequest_ok c _ _ _ _ _ s s1 resp hadd hstatus, hread]

/-! ### The guards -/

/-- C1 (as amended): when the hostname is a system hostname, had a certificate and is asked to
have none, `UpdatePullzoneHostname` fails without any remote call and leaves the remote state
as it was; the error is the policy violation when the zone id is non-zero, and "pullzone is
required" when it is zero, because the zone check comes first. -/
theorem update_system_certificate_removal_rejected {σ : Type} (c : Client σ)
    (data previousData : PullzoneHostname) (s : σ)
    (hsys : data.IsSystemHostname = true) (hprev : previousData.HasCertificate = true)
    (hdes : data.HasCertificate = false) :
    (UpdatePullzoneHostname c data previousData s).ret =
        (PullzoneHostname.zero,
          some (if data.PullzoneId = 0 then "pullzone is required"
                else "removing a certificate from an internal hostname is not supported")) ∧
      (UpdatePullzoneHostname c data previousData s).trace = [] ∧
      (UpdatePullzoneHostname c data previousData s).state = s := by
  unfold UpdatePullzoneHostname
  by_cases hz : data.PullzoneId = 0
  · simp [hz]
  · simp [hz, hsys, hprev, hdes]

/-- C1, at a concrete input: a system hostname of zone 7 losing its certificate. -/
theorem update_system_certificate_removal_rejected_witness :
    (UpdatePullzoneHostname (staticClient [systemHost])
        { systemHost with PullzoneId := 7, HasCertificate := false } systemHost ()).ret =
        (PullzoneHostname.zero,
          some "removing a certificate from an internal hostname is not supported") ∧
      (UpdatePullzoneHostname (staticClient [systemHost])
        { systemHost with PullzoneId := 7, HasCertificate := false } systemHost ()).trace = [] :=
  ⟨(update_system_certificate_removal_rejected (staticClient [systemHost])
      { systemHost with PullzoneId := 7, HasCertificate := false } systemHost () rfl rfl rfl).1,
   (update_system_certificate_removal_rejected (staticClient [systemHost])
      { systemHost with PullzoneId := 7, HasCertificate := false } systemHost () rfl rfl rfl).2.1⟩

/-- C1 as stated fails when the zone id is zero: the three conditions hold, yet the error is
"pullzone is required", not the policy violation. -/
theorem update_system_certificate_removal_zero_zone :
    systemHost.PullzoneId = 0 ∧
      ({ systemHost with HasCertificate := false } : PullzoneHostname).IsSystemHostname = true ∧
      systemHost.HasCertificate = true ∧
      ({ systemHost with HasCertificate := false } : PullzoneHostname).HasCertificate = false ∧
      (UpdatePullzoneHostname (staticClient [systemHost])
        { systemHost with HasCertificate := false } systemHost ()).ret =
        (PullzoneHostname.zero, some "pullzone is required") ∧
      (UpdatePullzoneHostname (staticClient [systemHost])
        { systemHost with HasCertificate := false } systemHost ()).ret.2 ≠
        some "removing a certificate from an internal hostname is not supported" := by
  decide

/-- C2: with a zero zone id `CreatePullzoneHostname` returns the zero hostname and the error
"pullzone is required", makes no remote call and leaves the remote state as it was. -/
theorem create_requires_pullzone {σ : Type} (c : Client σ) (data : PullzoneHostname) (s : σ)
    (hz : data.PullzoneId = 0) :
    (CreatePullzoneHostname c data s).ret =
        (PullzoneHostname.zero, some "pullzone is required") ∧
      (CreatePullzoneHostname c data s).trace = [] ∧
      (CreatePullzoneHostname c data s).calls = [] ∧
      (CreatePullzoneHostname c data s).state = s := by
  unfold Outcome.calls CreatePullzoneHostname
  simp [hz]

/-- C2, at a concrete input: a full desired hostname with zone id zero, against a remote that
would accept every call. -/
theorem create_requires_pullzone_witness :
    (CreatePullzoneHostname (zoneRemote 5)
        ⟨9, 0, "a.example.com", true, true, true⟩ [systemHost]).ret =
        (PullzoneHostname.zero, some "pullzone is required") ∧
      (CreatePullzoneHostname (zoneRemote 5)
        ⟨9, 0, "a.example.com", true, true, true⟩ [systemHost]).trace = [] ∧
      (CreatePullzoneHostname (zoneRemote 5)
        ⟨9, 0, "a.example.com", true, true, true⟩ [systemHost]).calls = [] ∧
      (CreatePullzoneHostname (zoneRemote 5)
        ⟨9, 0, "a.example.com", true, true, true⟩ [systemHost]).state = [systemHost] :=
  create_requires_pullzone (zoneRemote 5) ⟨9, 0, "a.example.com", true, true, true⟩
    [systemHost] rfl

/-! ### Update -/

/-- C3: with a non-zero zone id and equal certificate flags, the calls of
`UpdatePullzoneHostname` are the `setForceSSL` request alone or followed by the final
`GetPullzone`; so its requests are exactly one `setForceSSL`, no `removeCertificate` and no
`loadFreeCertificate`, and `setForceSSL` is the first call of the run. -/
theorem update_same_certificate_only_forceSSL {σ : Type} (c : Client σ)
    (data previousData : PullzoneHostname) (s : σ) (hz : data.PullzoneId ≠ 0)
    (hsame : previousData.HasCertificate = data.HasCertificate) :
    ((UpdatePullzoneHostname c data previousData s).calls = [forceSSLCall c.apiUrl data] ∨
      (UpdatePullzoneHostname c data previousData s).calls =
        [forceSSLCall c.apiUrl data, .getPullzone data.PullzoneId]) ∧
    (UpdatePullzoneHostname c data previousData s).calls.filter Call.isRequest =
      [forceSSLCall c.apiUrl data] ∧
    (UpdatePullzoneHostname c data previousData s).calls.head? =
      some (forceSSLCall c.apiUrl data) ∧
    Call.request .MethodDelete (removeCertificateUrl c.apiUrl data.PullzoneId)
      (some (hostnameBody data.Name)) ∉ (UpdatePullzoneHostname c data previousData s).calls ∧
    Call.request .MethodGet (loadFreeCertificateUrl c.apiUrl data.Name) none ∉
      (UpdatePullzoneHostname c data previousData s).calls := by
  have hguard : (data.IsSystemHostname && previousData.HasCertificate && !data.HasCertificate)
      = false := by
    rw [hsame]
    cases data.IsSystemHostname <;> cases data.HasCertificate <;> rfl
  have hnone := certificateCalls_same c.apiUrl data previousData hsame
  have hshape : (UpdatePullzoneHostname c data previousData s).calls =
        [forceSSLCall c.apiUrl data] ∨
      (UpdatePullzoneHostname c data previousData s).calls =
        [forceSSLCall c.apiUrl data, .getPullzone data.PullzoneId] := by
    unfold Outcome.calls
    rcases update_run c data previousData s hz hguard with
      ⟨e, msg, -, hc, -⟩ | ⟨pre, e, msg, ht, hpre, -, he, -⟩ | ⟨pre, e, s3, ht, hpre, -, he, -⟩
    · rw [hnone] at hc
      cases hc
    · rw [hnone, List.map_eq_nil_iff] at hpre
      subst hpre
      left
      rw [ht]
      simp [he]
    · rw [hnone, List.map_eq_nil_iff] at hpre
      subst hpre
      right
      rw [ht]
      simp [he, getPullzoneHostname_calls]
  refine ⟨hshape, ?_⟩
  rcases hshape with h | h <;> rw [h] <;>
    simp [forceSSLCall, Call.isRequest]

/-- C3, at a concrete input: `a.example.com` in zone 5 keeps having no certificate and gets
forced SSL. -/
theorem update_same_certificate_only_forceSSL_witness :
    ({ listedHost false true with PullzoneId := 5 } : PullzoneHostname).PullzoneId ≠ 0 ∧
    (listedHost false false).HasCertificate =
      ({ listedHost false true with PullzoneId := 5 } : PullzoneHostname).HasCertificate ∧
    (UpdatePullzoneHostname (zoneRemote 5) { listedHost false true with PullzoneId := 5 }
      (listedHost false false) [systemHost, listedHost false false]).calls.filter
        Call.isRequest =
      [.request .MethodPost "https://api.bunny.net/pullzone/5/setForceSSL"
        (some [("ForceSSL", .bool true), ("Hostname", .str "a.example.com")])] ∧
    (UpdatePullzoneHostname (zoneRemote 5) { listedHost false true with PullzoneId := 5 }
      (listedHost false false) [systemHost, listedHost false false]).calls.head? =
      some (.request .MethodPost "https://api.bunny.net/pullzone/5/setForceSSL"
        (some [("ForceSSL", .bool true), ("Hostname", .str "a.example.com")])) :=
  ⟨by decide, rfl,
    (update_same_certificate_only_forceSSL (zoneRemote 5)
      { listedHost false true with PullzoneId := 5 } (listedHost false false)
      [systemHost, listedHost false false] (by decide) rfl).2.1,
    (update_same_certificate_only_forceSSL (zoneRemote 5)
      { listedHost false true with PullzoneId := 5 } (listedHost false false)
      [systemHost, listedHost false false] (by decide) rfl).2.2.1⟩

/-- C8: when the zone id is non-zero, the system-hostname guard passes and no call of the run
failed, the calls of `UpdatePullzoneHostname` are the certificate call that is due (removal,
provisioning or none), then `setForceSSL`, then the final `GetPullzone`. -/
theorem update_calls_exact {σ : Type} (c : Client σ) (data previousData : PullzoneHostname)
    (s : σ) (hz : data.PullzoneId ≠ 0)
    (hguard : ¬ (data.IsSystemHostname = true ∧ previousData.HasCertificate = true ∧
      data.HasCertificate = false))
    (hok : ∀ e ∈ (UpdatePullzoneHostname c data previousData s).trace, e.failed = false) :
    (UpdatePullzoneHostname c data previousData s).calls =
      certificateCalls c.apiUrl data previousData ++
        [forceSSLCall c.apiUrl data, .getPullzone data.PullzoneId] := by
  have hguard' : (data.IsSystemHostname && previousData.HasCertificate &&
      !data.HasCertificate) = false := by
    revert hguard
    cases data.IsSystemHostname <;> cases previousData.HasCertificate <;>
      cases data.HasCertificate <;> simp
  unfold Outcome.calls
  rcases update_run c data previousData s hz hguard' with
    ⟨e, msg, ht, -, hf, -⟩ | ⟨pre, e, msg, ht, -, -, -, hf, -⟩ |
    ⟨pre, e, s3, ht, hpre, -, he, -⟩
  · have := hok e (by rw [ht]; simp)
    rw [hf] at this
    cases this
  · have := hok e (by rw [ht]; simp)
    rw [hf] at this
    cases this
  · rw [ht]
    simp [hpre, he, getPullzoneHostname_calls]

/-- C8, at a concrete input: `a.example.com` in zone 5 loses its certificate. -/
theorem update_calls_exact_witness :
    (∀ e ∈ (UpdatePullzoneHostname (zoneRemote 5)
        { listedHost false true with PullzoneId := 5 } (listedHost true false)
        [systemHost, listedHost true false]).trace, e.failed = false) ∧
    (UpdatePullzoneHostname (zoneRemote 5) { listedHost false true with PullzoneId := 5 }
      (listedHost true false) [systemHost, listedHost true false]).calls =
      [.request .MethodDelete "https://api.bunny.net/pullzone/5/removeCertificate"
          (some [("Hostname", .str "a.example.com")]),
        .request .MethodPost "https://api.bunny.net/pullzone/5/setForceSSL"
          (some [("ForceSSL", .bool true), ("Hostname", .str "a.example.com")]),
        .getPullzone 5] :=
  ⟨by decide,
    update_calls_exact (zoneRemote 5) { listedHost false true with PullzoneId := 5 }
      (listedHost true false) [systemHost, listedHost true false] (by decide) (by decide)
      (by decide)⟩

/-- C9: in every run of `UpdatePullzoneHostname`, a failed call (transport error or unexpected
status) is the last call of the trace, and the run returns the zero hostname with an error that
is the transport error itself or ends with the status text of the failed reply. -/
theorem update_fail_fast {σ : Type} (c : Client σ) (data previousData : PullzoneHostname)
    (s : σ) (i : Nat) (e : Event)
    (hget : (UpdatePullzoneHostname c data previousData s).trace[i]? = some e)
    (hfail : e.failed = true) :
    i + 1 = (UpdatePullzoneHostname c data previousData s).trace.length ∧
    ∃ msg, (UpdatePullzoneHostname c data previousData s).ret =
        (PullzoneHostname.zero, some msg) ∧ e.reportedAs msg := by
  by_cases hz : data.PullzoneId = 0
  · simp [UpdatePullzoneHostname, hz] at hget
  by_cases hguard : (data.IsSystemHostname && previousData.HasCertificate &&
      !data.HasCertificate) = true
  · simp [UpdatePullzoneHostname, hz, hguard] at hget
  have hguard' := Bool.eq_false_iff.2 hguard
  rcases update_run c data previousData s hz hguard' with
    ⟨e0, msg, ht, -, -, hret, hrep⟩ | ⟨pre, e0, msg, ht, -, hpre, -, -, hret, hrep⟩ |
    ⟨pre, e0, s3, ht, -, hpre, -, he0, hret, -⟩
  · rw [ht] at hget ⊢
    rcases getElem?_snoc_cases [] e0 e i hget with h | ⟨hi, rfl⟩
    · cases h
    · exact ⟨by simp [hi], msg, hret, hrep⟩
  · rw [ht] at hget ⊢
    rcases getElem?_snoc_cases pre e0 e i hget with h | ⟨hi, rfl⟩
    · rw [hpre e h] at hfail
      cases hfail
    · exact ⟨by simp [hi], msg, hret, hrep⟩
  · obtain ⟨g, hg, hgf⟩ := getPullzoneHostname_run c data.PullzoneId data.Id s3
    rw [hg] at ht
    rw [ht] at hget ⊢
    rcases getElem?_snoc_cases (pre ++ [e0]) g e i hget with h | ⟨hi, rfl⟩
    · rcases List.mem_append.1 h with h | h
      · rw [hpre e h] at hfail
        cases hfail
      · rw [List.mem_singleton.1 h, he0] at hfail
        cases hfail
    · obtain ⟨msg, hm, hrep⟩ := hgf hfail
      exact ⟨by simp [hi], msg, by rw [hret, hm], hrep⟩

/-- C9, at a concrete input: the certificate of `a.example.com` is removed, then `setForceSSL`
is rejected with 503; that call is the second and last of the run, and the error ends with
the status text. -/
theorem update_fail_fast_witness :
    (UpdatePullzoneHostname rejectingPostClient { listedHost false true with PullzoneId := 5 }
      (listedHost true false) ()).trace[1]? =
      some (.request .MethodPost "https://api.bunny.net/pullzone/5/setForceSSL"
        (some [("ForceSSL", .bool true), ("Hostname", .str "a.example.com")])
        (.ok ⟨503, "503 Service Unavailable"⟩)) ∧
    1 + 1 = (UpdatePullzoneHostname rejectingPostClient
      { listedHost false true with PullzoneId := 5 } (listedHost true false) ()).trace.length ∧
    ∃ msg, (UpdatePullzoneHostname rejectingPostClient
        { listedHost false true with PullzoneId := 5 } (listedHost true false) ()).ret =
        (PullzoneHostname.zero, some msg) ∧
      Event.reportedAs (.request .MethodPost "https://api.bunny.net/pullzone/5/setForceSSL"
        (some [("ForceSSL", .bool true), ("Hostname", .str "a.example.com")])
        (.ok ⟨503, "503 Service Unavailable"⟩)) msg :=
  ⟨by decide,
    update_fail_fast rejectingPostClient { listedHost false true with PullzoneId := 5 }
      (listedHost true false) () 1 _ (by decide) (by decide)⟩

/-! ### Get and Delete -/

/-- C6: `GetPullzoneHostname` makes one call, the `GetPullzone` of the zone, and changes the
remote state only through it; when that call succeeds with hostname list `L`, the result is
the first entry of `L` whose `Id` is `id` with `PullzoneId` set to the zone, and it is the error
"Hostname not found" exactly when no entry of `L` has that `Id`. -/
theorem get_is_find_by_id {σ : Type} (c : Client σ) (pullzoneId id : Int) (s : σ) :
    (GetPullzoneHostname c pullzoneId id s).calls = [.getPullzone pullzoneId] ∧
    (GetPullzoneHostname c pullzoneId id s).state = (c.GetPullzone pullzoneId s).2 ∧
    (∀ pullzone s1, c.GetPullzone pullzoneId s = (.ok pullzone, s1) →
      (GetPullzoneHostname c pullzoneId id s).ret =
        (match pullzone.Hostnames.find? (fun h => decide (h.Id = id)) with
          | some h => ({ h with PullzoneId := pullzoneId }, none)
          | none => (PullzoneHostname.zero, some "Hostname not found")) ∧
      ((GetPullzoneHostname c pullzoneId id s).ret.2 = some "Hostname not found" ↔
        ∀ h ∈ pullzone.Hostnames, h.Id ≠ id) ∧
      ((GetPullzoneHostname c pullzoneId id s).ret.2 = none ↔
        ∃ h ∈ pullzone.Hostnames, h.Id = id)) := by
  refine ⟨getPullzoneHostname_calls c pullzoneId id s, ?_, ?_⟩
  · unfold GetPullzoneHostname
    rcases h : c.GetPullzone pullzoneId s with ⟨reply, s1⟩
    cases reply <;> rfl
  · intro pullzone s1 h
    have hret : (GetPullzoneHostname c pullzoneId id s).ret =
        GetPullzoneHostname.scan pullzoneId id pullzone.Hostnames := by
      unfold GetPullzoneHostname
      rw [h]
    rw [hret, getScan_eq_find]
    refine ⟨rfl, ?_, ?_⟩
    · cases hf : pullzone.Hostnames.find? (fun h => decide (h.Id = id)) with
      | none =>
        simp only [true_iff]
        intro h hh
        have := List.find?_eq_none.1 hf h hh
        simpa using this
      | some m =>
        have hm := List.find?_some hf
        have hmem := List.mem_of_find?_eq_some hf
        simp only [reduceCtorEq, false_iff, not_forall]
        exact ⟨m, hmem, by simpa using hm⟩
    · cases hf : pullzone.Hostnames.find? (fun h => decide (h.Id = id)) with
      | none =>
        simp only [reduceCtorEq, false_iff, not_exists, not_and]
        intro h hh
        have := List.find?_eq_none.1 hf h hh
        simpa using this
      | some m =>
        have hm := List.find?_some hf
        have hmem := List.mem_of_find?_eq_some hf
        simp only [true_iff]
        exact ⟨m, hmem, by simpa using hm⟩

/-- C6, at a concrete input: looking up id 2 in zone 5 returns the entry of `a.example.com`
with the zone id set. -/
theorem get_is_find_by_id_witness :
    (zoneRemote 5).GetPullzone 5 [systemHost, listedHost true true] =
      (.ok ⟨[systemHost, listedHost true true]⟩, [systemHost, listedHost true true]) ∧
    (GetPullzoneHostname (zoneRemote 5) 5 2 [systemHost, listedHost true true]).ret =
      ({ listedHost true true with PullzoneId := 5 }, none) :=
  ⟨rfl,
    ((get_is_find_by_id (zoneRemote 5) 5 2 [systemHost, listedHost true true]).2.2
      ⟨[systemHost, listedHost true true]⟩ [systemHost, listedHost true true] rfl).1⟩

/-- C5: `DeletePullzoneHostname` makes exactly one call, the DELETE `removeHostname` request
of the zone with body `Hostname = hostname`; when the request completes it succeeds exactly
when the status code is 204, and with any other status code its error is the status text;
a transport error is returned as it is. -/
theorem delete_single_request {σ : Type} (c : Client σ) (pullzoneId : Int) (hostname : String)
    (s : σ) :
    (DeletePullzoneHostname c pullzoneId hostname s).calls =
      [.request .MethodDelete (removeHostnameUrl c.apiUrl pullzoneId)
        (some (hostnameBody hostname))] ∧
    (∀ resp s1, c.doRequest .MethodDelete (removeHostnameUrl c.apiUrl pullzoneId)
        (some (hostnameBody hostname)) s = (.ok resp, s1) →
      ((DeletePullzoneHostname c pullzoneId hostname s).ret = none ↔
        resp.StatusCode = StatusNoContent) ∧
      (resp.StatusCode ≠ StatusNoContent →
        (DeletePullzoneHostname c pullzoneId hostname s).ret = some resp.Status)) ∧
    (∀ err s1, c.doRequest .MethodDelete (removeHostnameUrl c.apiUrl pullzoneId)
        (some (hostnameBody hostname)) s = (.err err, s1) →
      (DeletePullzoneHostname c pullzoneId hostname s).ret = some err) := by
  unfold Outcome.calls DeletePullzoneHostname
  rcases h : c.doRequest .MethodDelete (removeHostnameUrl c.apiUrl pullzoneId)
    (some (hostnameBody hostname)) s with ⟨reply, s1⟩
  cases reply with
  | err msg => simp [Event.call]
  | ok resp =>
    by_cases hs : resp.StatusCode = StatusNoContent
    · simp [Event.call, hs]
    · simp [Event.call, hs]

/-- C5, at a concrete input: removing `a.example.com` from zone 5 is answered with 204 and
succeeds. -/
theorem delete_single_request_witness :
    (zoneRemote 5).doRequest .MethodDelete (removeHostnameUrl (zoneRemote 5).apiUrl 5)
        (some (hostnameBody "a.example.com")) [systemHost, listedHost true true] =
      (.ok ⟨204, "204 No Content"⟩, [systemHost]) ∧
    ((DeletePullzoneHostname (zoneRemote 5) 5 "a.example.com"
        [systemHost, listedHost true true]).ret = none ↔ (204 : Int) = StatusNoContent) :=
  ⟨by decide,
    ((delete_single_request (zoneRemote 5) 5 "a.example.com"
      [systemHost, listedHost true true]).2.1 ⟨204, "204 No Content"⟩ [systemHost]
      (by decide)).1⟩

/-- C7, at zone id zero: Create and Update stop with "pullzone is required" before any remote
call, while `DeletePullzoneHostname` sends the `removeHostname` request for zone 0 and, the
remote answering 204, reports success. -/
theorem delete_zero_zone_sends_request :
    (CreatePullzoneHostname (staticClient [systemHost])
        { desiredHost with PullzoneId := 0 } ()).ret =
      (PullzoneHostname.zero, some "pullzone is required") ∧
    (CreatePullzoneHostname (staticClient [systemHost])
        { desiredHost with PullzoneId := 0 } ()).calls = [] ∧
    (UpdatePullzoneHostname (staticClient [systemHost])
        { desiredHost with PullzoneId := 0 } (listedHost false false) ()).ret =
      (PullzoneHostname.zero, some "pullzone is required") ∧
    (UpdatePullzoneHostname (staticClient [systemHost])
        { desiredHost with PullzoneId := 0 } (listedHost false false) ()).calls = [] ∧
    (DeletePullzoneHostname (staticClient [systemHost]) 0 "a.example.com" ()).ret = none ∧
    (DeletePullzoneHostname (staticClient [systemHost]) 0 "a.example.com" ()).calls =
      [.request .MethodDelete "https://api.bunny.net/pullzone/0/removeHostname"
        (some [("Hostname", .str "a.example.com")])] := by
  decide

/-! ### Create -/

/-- C10: with a non-zero zone id, once `addHostname` answered 204 and the zone was read back
with hostname list `L`, `CreatePullzoneHostname` is `UpdatePullzoneHostname` run on the first
entry `m` of `L` named `data.Name`, overlaid with the zone id and the caller's `HasCertificate`
and `ForceSSL`, against the snapshot holding only `m.HasCertificate`: same result, same final
state, and the trace is the two calls of Create followed by the trace of Update.  With no such
entry it returns "Hostname not found" after those two calls.  The caller's `Id` and
`IsSystemHostname` play no part. -/
theorem create_delegates_to_update {σ : Type} (c : Client σ) (data : PullzoneHostname)
    (s s1 s2 : σ) (resp : Response) (pullzone : Pullzone)
    (hz : data.PullzoneId ≠ 0)
    (hadd : c.doRequest .MethodPost (addHostnameUrl c.apiUrl data.PullzoneId)
      (some (hostnameBody data.Name)) s = (.ok resp, s1))
    (hstatus : resp.StatusCode = StatusNoContent)
    (hread : c.GetPullzone data.PullzoneId s1 = (.ok pullzone, s2)) :
    (∀ m, pullzone.Hostnames.find? (fun h => decide (h.Name = data.Name)) = some m →
      (CreatePullzoneHostname c data s).ret =
        (UpdatePullzoneHostname c (overlay m data) (snapshot m) s2).ret ∧
      (CreatePullzoneHostname c data s).state =
        (UpdatePullzoneHostname c (overlay m data) (snapshot m) s2).state ∧
      (CreatePullzoneHostname c data s).trace =
        [.request .MethodPost (addHostnameUrl c.apiUrl data.PullzoneId)
            (some (hostnameBody data.Name)) (.ok resp),
          .getPullzone data.PullzoneId (.ok pullzone)] ++
        (UpdatePullzoneHostname c (overlay m data) (snapshot m) s2).trace) ∧
    ((∀ h ∈ pullzone.Hostnames, h.Name ≠ data.Name) →
      (CreatePullzoneHostname c data s).ret =
        (PullzoneHostname.zero, some "Hostname not found") ∧
      (CreatePullzoneHostname c data s).calls =
        [.request .MethodPost (addHostnameUrl c.apiUrl data.PullzoneId)
            (some (hostnameBody data.Name)),
          .getPullzone data.PullzoneId]) ∧
    (∀ (id : Int) (sys : Bool),
      CreatePullzoneHostname c { data with Id := id, IsSystemHostname := sys } s =
        CreatePullzoneHostname c data s) := by
  have hchk : checkedRequest c .MethodPost (addHostnameUrl c.apiUrl data.PullzoneId)
      (some (hostnameBody data.Name)) StatusNoContent "addHostname" s =
      (none, s1, [.request .MethodPost (addHostnameUrl c.apiUrl data.PullzoneId)
        (some (hostnameBody data.Name)) (.ok resp)]) := by
    unfold checkedRequest
    rw [hadd]
    simp [hstatus]
  have hrun : CreatePullzoneHostname c data s =
      ⟨(CreatePullzoneHostname.scan c data data.PullzoneId s2 pullzone.Hostnames).ret,
       (CreatePullzoneHostname.scan c data data.PullzoneId s2 pullzone.Hostnames).state,
       [.request .MethodPost (addHostnameUrl c.apiUrl data.PullzoneId)
            (some (hostnameBody data.Name)) (.ok resp),
          .getPullzone data.PullzoneId (.ok pullzone)] ++
        (CreatePullzoneHostname.scan c data data.PullzoneId s2 pullzone.Hostnames).trace⟩ := by
    unfold CreatePullzoneHostname
    simp [hz, hchk, hread]
  refine ⟨?_, ?_, ?_⟩
  · intro m hm
    rw [hrun, createScan_eq_find, hm]
    exact ⟨rfl, rfl, rfl⟩
  · intro hnone
    have hf : pullzone.Hostnames.find? (fun h => decide (h.Name = data.Name)) = none := by
      rw [List.find?_eq_none]
      intro h hh
      simpa using hnone h hh
    unfold Outcome.calls
    rw [hrun, createScan_eq_find, hf]
    exact ⟨rfl, rfl⟩
  · intro id sys
    unfold CreatePullzoneHostname
    simp only [createScan_congr c data
      { data with Id := id, IsSystemHostname := sys } data.PullzoneId _ _ rfl rfl rfl]

/-- C10, at a concrete input: Create of `a.example.com` in zone 5 is Update of the listed
entry with id 2. -/
theorem create_delegates_to_update_witness :
    (CreatePullzoneHostname (zoneRemote 5) desiredHost [systemHost]).ret =
        (UpdatePullzoneHostname (zoneRemote 5) (overlay (listedHost false false) desiredHost)
          (snapshot (listedHost false false)) [systemHost, listedHost false false]).ret ∧
      (CreatePullzoneHostname (zoneRemote 5) desiredHost [systemHost]).state =
        (UpdatePullzoneHostname (zoneRemote 5) (overlay (listedHost false false) desiredHost)
          (snapshot (listedHost false false)) [systemHost, listedHost false false]).state ∧
      (CreatePullzoneHostname (zoneRemote 5) desiredHost [systemHost]).trace =
        [.request .MethodPost (addHostnameUrl (zoneRemote 5).apiUrl desiredHost.PullzoneId)
            (some (hostnameBody desiredHost.Name)) (.ok ⟨204, "204 No Content"⟩),
          .getPullzone desiredHost.PullzoneId (.ok ⟨[systemHost, listedHost false false]⟩)] ++
        (UpdatePullzoneHostname (zoneRemote 5) (overlay (listedHost false false) desiredHost)
          (snapshot (listedHost false false)) [systemHost, listedHost false false]).trace :=
  (create_delegates_to_update (zoneRemote 5) desiredHost [systemHost]
    [systemHost, listedHost false false] [systemHost, listedHost false false]
    ⟨204, "204 No Content"⟩ ⟨[systemHost, listedHost false false]⟩
    (by decide) (by decide) rfl (by decide)).1 (listedHost false false) (by decide)

/-- C4 (as amended): Create of a hostname with a non-zero zone id and `HasCertificate = true`,
run against a remote where `addHostname` answers 204, the zone read back lists under
`data.Name` first an entry `m` that has no certificate and is not a system hostname,
`loadFreeCertificate` answers 200, `setForceSSL` answers 204 and the final read succeeds,
makes exactly the calls `addHostname`, `GetPullzone`, `loadFreeCertificate`, `setForceSSL`,
`GetPullzone`, whatever the final listing holds, and returns what the lookup of the id of `m`
in the final listing gives.  If moreover, in the final listing, every entry named `data.Name`
has a certificate and the desired `ForceSSL`, and the id of `m` is listed and belongs to
entries of that name only, the returned hostname has `HasCertificate = true` and
`ForceSSL = data.ForceSSL`. -/
theorem create_end_to_end {σ : Type} (c : Client σ) (data m : PullzoneHostname)
    (s0 s1 s2 s3 s4 s5 : σ) (r1 r3 r4 : Response) (pullzone final : Pullzone)
    (hz : data.PullzoneId ≠ 0) (hcert : data.HasCertificate = true)
    (hadd : c.doRequest .MethodPost (addHostnameUrl c.apiUrl data.PullzoneId)
      (some (hostnameBody data.Name)) s0 = (.ok r1, s1))
    (h1 : r1.StatusCode = StatusNoContent)
    (hread : c.GetPullzone data.PullzoneId s1 = (.ok pullzone, s2))
    (hm : pullzone.Hostnames.find? (fun h => decide (h.Name = data.Name)) = some m)
    (hmcert : m.HasCertificate = false) (hmsys : m.IsSystemHostname = false)
    (hload : c.doRequest .MethodGet (loadFreeCertificateUrl c.apiUrl data.Name) none s2 =
      (.ok r3, s3))
    (h3 : r3.StatusCode = StatusOK)
    (hssl : c.doRequest .MethodPost (setForceSSLUrl c.apiUrl data.PullzoneId)
      (some (forceSSLBody data.ForceSSL data.Name)) s3 = (.ok r4, s4))
    (h4 : r4.StatusCode = StatusNoContent)
    (hfinal : c.GetPullzone data.PullzoneId s4 = (.ok final, s5)) :
    (CreatePullzoneHostname c data s0).calls =
      [.request .MethodPost (addHostnameUrl c.apiUrl data.PullzoneId)
          (some (hostnameBody data.Name)),
        .getPullzone data.PullzoneId,
        .request .MethodGet (loadFreeCertificateUrl c.apiUrl data.Name) none,
        .request .MethodPost (setForceSSLUrl c.apiUrl data.PullzoneId)
          (some (forceSSLBody data.ForceSSL data.Name)),
        .getPullzone data.PullzoneId] ∧
    (CreatePullzoneHostname c data s0).state = s5 ∧
    (CreatePullzoneHostname c data s0).ret =
      (match final.Hostnames.find? (fun h => decide (h.Id = m.Id)) with
        | some h => ({ h with PullzoneId := data.PullzoneId }, none)
        | none => (PullzoneHostname.zero, some "Hostname not found")) ∧
    ((∀ h ∈ final.Hostnames, h.Name = data.Name →
        h.HasCertificate = true ∧ h.ForceSSL = data.ForceSSL) →
      (∀ h ∈ final.Hostnames, h.Id = m.Id → h.Name = data.Name) →
      (∃ h ∈ final.Hostnames, h.Id = m.Id) →
      (CreatePullzoneHostname c data s0).ret.2 = none ∧
      (CreatePullzoneHostname c data s0).ret.1.HasCertificate = true ∧
      (CreatePullzoneHostname c data s0).ret.1.ForceSSL = data.ForceSSL ∧
      (CreatePullzoneHostname c data s0).ret.1.Name = data.Name ∧
      (CreatePullzoneHostname c data s0).ret.1.PullzoneId = data.PullzoneId) := by
  have hname : m.Name = data.Name := by simpa using List.find?_some hm
  have hup : UpdatePullzoneHostname c (overlay m data) (snapshot m) s2 =
      ⟨GetPullzoneHostname.scan data.PullzoneId m.Id final.Hostnames, s5,
        [.request .MethodGet (loadFreeCertificateUrl c.apiUrl data.Name) none (.ok r3),
         .request .MethodPost (setForceSSLUrl c.apiUrl data.PullzoneId)
          (some (forceSSLBody data.ForceSSL data.Name)) (.ok r4),
         .getPullzone data.PullzoneId (.ok final)]⟩ := by
    unfold UpdatePullzoneHostname
    simp [overlay, snapshot, hz, hcert, hmcert, hmsys, hname,
      checkedRequest_ok c _ _ _ _ _ s2 s3 r3 hload h3,
      checkedRequest_ok c _ _ _ _ _ s3 s4 r4 hssl h4, GetPullzoneHostname, hfinal]
  have hrun := create_run c data s0 s1 s2 r1 pullzone hz hadd h1 hread
  rw [createScan_eq_find, hm] at hrun
  simp only [] at hrun
  rw [hup] at hrun
  have hret : (CreatePullzoneHostname c data s0).ret =
      (match final.Hostnames.find? (fun h => decide (h.Id = m.Id)) with
        | some h => ({ h with PullzoneId := data.PullzoneId }, none)
        | none => (PullzoneHostname.zero, some "Hostname not found")) := by
    rw [hrun, getScan_eq_find]
  refine ⟨?_, ?_, hret, ?_⟩
  · unfold Outcome.calls
    rw [hrun]
    simp [Event.call]
  · rw [hrun]
  · intro hbound hid hlisted
    obtain ⟨h, hmem, hhid⟩ := hlisted
    have hsome : (final.Hostnames.find? (fun h => decide (h.Id = m.Id))).isSome = true := by
      rw [List.find?_isSome]
      exact ⟨h, hmem, by simpa using hhid⟩
    obtain ⟨f, hf⟩ := Option.isSome_iff_exists.1 hsome
    have hfid : f.Id = m.Id := by simpa using List.find?_some hf
    have hfmem := List.mem_of_find?_eq_some hf
    have hfname := hid f hfmem hfid
    obtain ⟨hfc, hfs⟩ := hbound f hfmem hfname
    rw [hret, hf]
    simp [hfc, hfs, hfname]

/-- C4, at the end-to-end input: zone 5, `a.example.com`, certificate and forced SSL wanted,
against the zone remote that starts with its system hostname only. -/
theorem create_end_to_end_witness :
    (CreatePullzoneHostname (zoneRemote 5) desiredHost [systemHost]).calls =
      [.request .MethodPost "https://api.bunny.net/pullzone/5/addHostname"
          (some [("Hostname", .str "a.example.com")]),
        .getPullzone 5,
        .request .MethodGet
          "https://api.bunny.net/pullzone/loadFreeCertificate?hostname=a.example.com" none,
        .request .MethodPost "https://api.bunny.net/pullzone/5/setForceSSL"
          (some [("ForceSSL", .bool true), ("Hostname", .str "a.example.com")]),
        .getPullzone 5] ∧
    (CreatePullzoneHostname (zoneRemote 5) desiredHost [systemHost]).ret.2 = none ∧
    (CreatePullzoneHostname (zoneRemote 5) desiredHost [systemHost]).ret.1.HasCertificate
      = true ∧
    (CreatePullzoneHostname (zoneRemote 5) desiredHost [systemHost]).ret.1.ForceSSL = true ∧
    (CreatePullzoneHostname (zoneRemote 5) desiredHost [systemHost]).ret.1.Name
      = "a.example.com" ∧
    (CreatePullzoneHostname (zoneRemote 5) desiredHost [systemHost]).ret.1.PullzoneId = 5 :=
  ⟨(create_end_to_end (zoneRemote 5) desiredHost (listedHost false false)
      [systemHost] [systemHost, listedHost false false] [systemHost, listedHost false false]
      [systemHost, listedHost true false] [systemHost, listedHost true true]
      [systemHost, listedHost true true]
      ⟨204, "204 No Content"⟩ ⟨200, "200 OK"⟩ ⟨204, "204 No Content"⟩
      ⟨[systemHost, listedHost false false]⟩ ⟨[systemHost, listedHost true true]⟩
      (by decide) rfl (by decide) rfl (by decide) (by decide) rfl rfl (by decide) rfl
      (by decide) rfl (by decide)).1,
   (create_end_to_end (zoneRemote 5) desiredHost (listedHost false false)
      [systemHost] [systemHost, listedHost false false] [systemHost, listedHost false false]
      [systemHost, listedHost true false] [systemHost, listedHost true true]
      [systemHost, listedHost true true]
      ⟨204, "204 No Content"⟩ ⟨200, "200 OK"⟩ ⟨204, "204 No Content"⟩
      ⟨[systemHost, listedHost false false]⟩ ⟨[systemHost, listedHost true true]⟩
      (by decide) rfl (by decide) rfl (by decide) (by decide) rfl rfl (by decide) rfl
      (by decide) rfl (by decide)).2.2.2 (by decide) (by decide) (by decide)⟩

/-- C4 as stated fails when the entry listed under the name is a system hostname: every call
is answered with its expected status and the entry has no certificate, yet Create makes four
calls, none of them `loadFreeCertificate`, and returns the entry without certificate. -/
theorem create_system_entry_skips_certificate :
    ({ desiredHost with Name := "zone5.b-cdn.net" } : PullzoneHostname).PullzoneId ≠ 0 ∧
    ({ desiredHost with Name := "zone5.b-cdn.net" } : PullzoneHostname).HasCertificate = true ∧
    (∀ e ∈ (CreatePullzoneHostname (staticClient [bareSystemHost])
        { desiredHost with Name := "zone5.b-cdn.net" } ()).trace, e.failed = false) ∧
    (∃ h ∈ [bareSystemHost], h.Name = "zone5.b-cdn.net" ∧ h.HasCertificate = false) ∧
    (CreatePullzoneHostname (staticClient [bareSystemHost])
        { desiredHost with Name := "zone5.b-cdn.net" } ()).calls =
      [.request .MethodPost "https://api.bunny.net/pullzone/5/addHostname"
          (some [("Hostname", .str "zone5.b-cdn.net")]),
        .getPullzone 5,
        .request .MethodPost "https://api.bunny.net/pullzone/5/setForceSSL"
          (some [("ForceSSL", .bool true), ("Hostname", .str "zone5.b-cdn.net")]),
        .getPullzone 5] ∧
    (CreatePullzoneHostname (staticClient [bareSystemHost])
        { desiredHost with Name := "zone5.b-cdn.net" } ()).calls ≠
      [.request .MethodPost "https://api.bunny.net/pullzone/5/addHostname"
          (some [("Hostname", .str "zone5.b-cdn.net")]),
        .getPullzone 5,
        .request .MethodGet
          "https://api.bunny.net/pullzone/loadFreeCertificate?hostname=zone5.b-cdn.net" none,
        .request .MethodPost "https://api.bunny.net/pullzone/5/setForceSSL"
          (some [("ForceSSL", .bool true), ("Hostname", .str "zone5.b-cdn.net")]),
        .getPullzone 5] ∧
    (CreatePullzoneHostname (staticClient [bareSystemHost])
        { desiredHost with Name := "zone5.b-cdn.net" } ()).ret =
      ({ bareSystemHost with PullzoneId := 5 }, none) := by
  decide

end BunnyApi
